import Mathlib

/-!
# A verification development for the gotrue authentication server core

This file gives a shallow embedding, in Lean 4, of the security-critical core of
the gotrue authentication server, and proves (or refutes) the frozen behavioural
claims about it.  The embedded parts are:

* the PKCE flow-state model (`FlowState`, `VerifyPKCE`, `IsExpired`) from
  `internal/models/flow_state.go`, together with executable SHA-256 and
  unpadded base64url, so the PKCE round-trip can be settled end to end;
* the session assurance-level model (`Session.calculateAALAndAMR`) from
  `models/sessions.go`;
* the MFA verify/unenroll handlers (`verifyFactor`, `unenrollFactor`) from
  `api/mfa.go`, with the database modelled as an explicit state record and the
  external TOTP validator as a function parameter;
* the hook dispatcher (`runHTTPHook`, `readBodyWithLimit`,
  `invokePostgresHook`, the hook output types and their `IsError`) from
  `api/hooks.go` and `internal/hooks/auth_hooks.go`, with the sequence of HTTP
  attempt outcomes and the elapsed-time clock as explicit parameters.

Times are modelled as naturals (Unix seconds), UUIDs as naturals, byte strings
as `List Nat` with every element `< 256`, and machine 32-bit arithmetic as
`Nat` arithmetic reduced `% 2 ^ 32`.
-/

deriving instance DecidableEq for Except

namespace Gotrue

/-! ## Byte-level helpers -/

/-- Big-endian byte decomposition of `x` into `n` bytes (most significant first). -/
def toBytesBE : Nat → Nat → List Nat
  | 0, _ => []
  | n + 1, x => toBytesBE n (x / 256) ++ [x % 256]

/-! ## SHA-256 (`crypto/sha256`), executable over byte lists -/

/-- Right rotation of a 32-bit word. -/
def rotr32 (n x : Nat) : Nat := x / 2 ^ n + x % 2 ^ n * 2 ^ (32 - n)

/-- Right shift of a 32-bit word. -/
def shr32 (n x : Nat) : Nat := x / 2 ^ n

/-- Bitwise complement of a 32-bit word. -/
def not32 (x : Nat) : Nat := 2 ^ 32 - 1 - x

def ch32 (e f g : Nat) : Nat := (e &&& f) ^^^ (not32 e &&& g)

def maj32 (a b c : Nat) : Nat := (a &&& b) ^^^ (a &&& c) ^^^ (b &&& c)

def bsig0 (x : Nat) : Nat := rotr32 2 x ^^^ rotr32 13 x ^^^ rotr32 22 x

def bsig1 (x : Nat) : Nat := rotr32 6 x ^^^ rotr32 11 x ^^^ rotr32 25 x

def ssig0 (x : Nat) : Nat := rotr32 7 x ^^^ rotr32 18 x ^^^ shr32 3 x

def ssig1 (x : Nat) : Nat := rotr32 17 x ^^^ rotr32 19 x ^^^ shr32 10 x

/-- The SHA-256 round constants (FIPS 180-4, in decimal). -/
def sha256K : List Nat :=
  [1116352408, 1899447441, 3049323471, 3921009573, 961987163, 1508970993, 2453635748,
   2870763221, 3624381080, 310598401, 607225278, 1426881987, 1925078388, 2162078206,
   2614888103, 3248222580, 3835390401, 4022224774, 264347078, 604807628, 770255983,
   1249150122, 1555081692, 1996064986, 2554220882, 2821834349, 2952996808, 3210313671,
   3336571891, 3584528711, 113926993, 338241895, 666307205, 773529912, 1294757372,
   1396182291, 1695183700, 1986661051, 2177026350, 2456956037, 2730485921, 2820302411,
   3259730800, 3345764771, 3516065817, 3600352804, 4094571909, 275423344, 430227734,
   506948616, 659060556, 883997877, 958139571, 1322822218, 1537002063, 1747873779,
   1955562222, 2024104815, 2227730452, 2361852424, 2428436474, 2756734187, 3204031479,
   3329325298]

/-- The SHA-256 initial hash value (FIPS 180-4, in decimal). -/
def sha256H0 : List Nat :=
  [1779033703, 3144134277, 1013904242, 2773480762, 1359893119, 2600822924, 528734635,
   1541459225]

/-- SHA-256 message padding: append 0x80, zeros, and the 64-bit big-endian bit length. -/
def sha256Pad (m : List Nat) : List Nat :=
  let L := m.length
  let k := (120 - (L + 1) % 64) % 64
  m ++ [0x80] ++ List.replicate k 0 ++ toBytesBE 8 (L * 8)

/-- Group bytes into big-endian 32-bit words. -/
def bytesToWords : List Nat → List Nat
  | a :: b :: c :: d :: rest => (((a * 256 + b) * 256 + c) * 256 + d) :: bytesToWords rest
  | _ => []

/-- Extend a 16-word block by `n` further message-schedule words. -/
def extendSchedule : Nat → List Nat → List Nat
  | 0, w => w
  | n + 1, w =>
    let t := w.length
    extendSchedule n (w ++
      [(ssig1 (w.getD (t - 2) 0) + w.getD (t - 7) 0 + ssig0 (w.getD (t - 15) 0) +
        w.getD (t - 16) 0) % 2 ^ 32])

/-- One SHA-256 compression round per (constant, schedule word) pair. -/
def sha256Rounds : List (Nat × Nat) → List Nat → List Nat
  | [], st => st
  | (k, w) :: rest, st =>
    match st with
    | [a, b, c, d, e, f, g, h] =>
      let t1 := (h + bsig1 e + ch32 e f g + k + w) % 2 ^ 32
      let t2 := (bsig0 a + maj32 a b c) % 2 ^ 32
      sha256Rounds rest [(t1 + t2) % 2 ^ 32, a, b, c, (d + t1) % 2 ^ 32, e, f, g]
    | st => st

/-- Compress one 16-word block into the running hash state. -/
def sha256Compress (st block : List Nat) : List Nat :=
  let w := extendSchedule 48 block
  let out := sha256Rounds (sha256K.zip w) st
  (st.zip out).map fun p => (p.1 + p.2) % 2 ^ 32

/-- Process the padded word stream 16 words at a time (fuel-bounded). -/
def sha256Blocks : Nat → List Nat → List Nat → List Nat
  | 0, _, st => st
  | fuel + 1, ws, st =>
    match ws with
    | [] => st
    | _ => sha256Blocks fuel (ws.drop 16) (sha256Compress st (ws.take 16))

/-- SHA-256 of a byte string, as its 32-byte digest. -/
def sha256 (m : List Nat) : List Nat :=
  let ws := bytesToWords (sha256Pad m)
  let final := sha256Blocks ws.length ws sha256H0
  final.flatMap (toBytesBE 4)

/-- The digest of a message viewed as a function from byte positions to byte
values, used to relate SHA-256 to a finite codomain. -/
def digestFin (m : List Nat) : Fin 32 → Fin 256 :=
  fun i => ⟨(sha256 m).getD i 0 % 256, Nat.mod_lt _ (by decide)⟩

/-! ## Unpadded base64url (`encoding/base64` `RawURLEncoding`) -/

/-- The base64url alphabet. -/
def b64Alphabet : List Char :=
  "ABCDEFGHIJKLMNOPQRSTUVWXYZabcdefghijklmnopqrstuvwxyz0123456789-_".toList

/-- Character for one 6-bit group. -/
def sextetChar (n : Nat) : Char := b64Alphabet.getD n 'A'

/-- Split bytes into 6-bit groups, 3 bytes at a time, with the unpadded tail
encodings for a remainder of 1 or 2 bytes. -/
def b64Sextets : List Nat → List Nat
  | [] => []
  | [a] => [a / 4, a % 4 * 16]
  | [a, b] => [a / 4, a % 4 * 16 + b / 16, b % 16 * 4]
  | a :: b :: c :: rest =>
    a / 4 :: (a % 4 * 16 + b / 16) :: (b % 16 * 4 + c / 64) :: c % 64 :: b64Sextets rest

/-- Unpadded base64url encoding of a byte string. -/
def b64UrlEncode (bs : List Nat) : String := String.mk ((b64Sextets bs).map sextetChar)

/-! ## Byte view of Lean strings (Go's `[]byte(s)` over UTF-8 strings) -/

/-- UTF-8 encoding of one character. -/
def charBytes (c : Char) : List Nat :=
  let n := c.toNat
  if n < 0x80 then [n]
  else if n < 0x800 then [0xC0 + n / 64, 0x80 + n % 64]
  else if n < 0x10000 then [0xE0 + n / 4096, 0x80 + n / 64 % 64, 0x80 + n % 64]
  else [0xF0 + n / 262144, 0x80 + n / 4096 % 64, 0x80 + n / 64 % 64, 0x80 + n % 64]

/-- UTF-8 bytes of a string, Go's `[]byte(s)`. -/
def strBytes (s : String) : List Nat := s.toList.flatMap charBytes

/-! ## FlowState (`internal/models/flow_state.go`) -/

/-- Error message for a code-verifier mismatch (`InvalidCodeChallengeError`). -/
def InvalidCodeChallengeError : String :=
  "code challenge does not match previously saved code verifier"

/-- Error message for an unsupported challenge method (`InvalidCodeMethodError`). -/
def InvalidCodeMethodError : String := "code challenge method not supported"

/-- The `CodeChallengeMethod` enumeration. -/
inductive CodeChallengeMethod
  | s256
  | plain
deriving DecidableEq

/-- String form of a code challenge method (`CodeChallengeMethod.String`). -/
def CodeChallengeMethod.string : CodeChallengeMethod → String
  | .s256 => "s256"
  | .plain => "plain"

/-- One PKCE authorization-in-progress record.  UUIDs are naturals and
timestamps Unix seconds. -/
structure FlowState where
  id : Nat
  userId : Option Nat
  authCode : String
  authenticationMethod : String
  codeChallenge : String
  codeChallengeMethod : String
  providerType : String
  providerAccessToken : String
  providerRefreshToken : String
  createdAt : Nat
  updatedAt : Nat
deriving DecidableEq

/-- Constant-time byte comparison (`crypto/subtle.ConstantTimeCompare` applied
to the byte views of the two strings); it reports 1 exactly on equality, which
for Go strings coincides with string equality. -/
def constantTimeEq (s t : String) : Bool := s = t

/-- The `FlowState.VerifyPKCE` code-verifier check: for method "s256" the
verifier is hashed with SHA-256 and base64url-encoded without padding before a
constant-time comparison with the stored challenge; for "plain" the verifier is
compared directly; any other method is a distinct hard failure. -/
def FlowState.verifyPKCE (f : FlowState) (codeVerifier : String) : Except String Unit :=
  if f.codeChallengeMethod = CodeChallengeMethod.s256.string then
    let hashedCodeVerifier := sha256 (strBytes codeVerifier)
    let encodedCodeVerifier := b64UrlEncode hashedCodeVerifier
    if constantTimeEq f.codeChallenge encodedCodeVerifier then Except.ok ()
    else Except.error InvalidCodeChallengeError
  else if f.codeChallengeMethod = CodeChallengeMethod.plain.string then
    if constantTimeEq f.codeChallenge codeVerifier then Except.ok ()
    else Except.error InvalidCodeChallengeError
  else Except.error InvalidCodeMethodError

/-- The `FlowState.IsExpired` check exactly as written in the source:
`f.CreatedAt.After(time.Now().Add(expiryDuration))`, i.e. it reports whether
the creation time lies strictly after `now + expiryDuration`; `now` is the
ambient clock reading. -/
def FlowState.isExpired (f : FlowState) (expiryDuration now : Nat) : Bool :=
  f.createdAt > now + expiryDuration

/-! ## Sessions and assurance levels (`models/sessions.go`) -/

/-- String form of an authenticator assurance level
(`AuthenticatorAssuranceLevel.String`). -/
def aal1String : String := "aal1"

/-- String form of `AAL2`. -/
def aal2String : String := "aal2"

/-- Modelled from the spec: `models.TOTPSignIn.String()`, the
authentication-method name recorded in an AMR claim for a TOTP sign-in; the
`AuthenticationMethod` enumeration itself is outside the modelled slice. -/
def TOTPSignInString : String := "totp"

/-- One stored AMR claim row (`AMRClaim`): the method satisfied and its update
time. -/
structure AMRClaim where
  authenticationMethod : String
  updatedAt : Nat
deriving DecidableEq

/-- One AMR entry of the claims trail returned to token issuance (`AMREntry`). -/
structure AMREntry where
  method : String
  timestamp : Nat
deriving DecidableEq

/-- A logical authenticated session (`Session`), with its AMR claim trail. -/
structure Session where
  id : Nat
  userId : Nat
  factorId : Option Nat
  amrClaims : List AMRClaim
  aal : String
deriving DecidableEq

/-- The `Session.CalculateAALAndAMR` projection: start from `aal1` and an empty
trail; every claim appends one AMR entry, and any TOTP claim raises the level
to `aal2`. -/
def Session.calculateAALAndAMR (s : Session) : String × List AMREntry :=
  s.amrClaims.foldl
    (fun acc claim =>
      ((if claim.authenticationMethod = TOTPSignInString then aal2String else acc.1),
        acc.2 ++ [{ method := claim.authenticationMethod, timestamp := claim.updatedAt }]))
    (aal1String, [])

/-! ## MFA challenge verification and unenrollment (`api/mfa.go`)

The relational store is modelled as an explicit state record; the external TOTP
validator (`totp.Validate`) is a function parameter mapping (code, secret) to a
boolean; audit-log writes and token issuance are external collaborators that
succeed inside the transaction and do not alter the modelled state. -/

/-- Modelled from the spec: `models.FactorVerifiedState`, the status string of
a verified factor (status ∈ {unverified, verified}); the `Factor` model file is
outside the modelled slice. -/
def FactorVerifiedState : String := "verified"

/-- Modelled from the spec: `models.FactorUnverifiedState`. -/
def FactorUnverifiedState : String := "unverified"

/-- One outstanding or resolved challenge row (`Challenge`). -/
structure Challenge where
  id : Nat
  factorId : Nat
  createdAt : Nat
  verifiedAt : Option Nat
deriving DecidableEq

/-- One enrolled factor row (`Factor`). -/
structure Factor where
  id : Nat
  userId : Nat
  status : String
  totpSecret : String
deriving DecidableEq

/-- The durable state the MFA handlers read and write: challenge, factor and
session tables. -/
structure MFAState where
  challenges : List Challenge
  factors : List Factor
  sessions : List Session
deriving DecidableEq

/-- The error kinds an API handler can return, with their messages. -/
inductive ApiError
  | notFound (msg : String)
  | badRequest (msg : String)
  | unauthorized (msg : String)
  | forbidden (msg : String)
  | unprocessable (msg : String)
  | internal (msg : String)
deriving DecidableEq

/-- The `VerifyFactor` handler on its modelled state.  Mirrors the source
order: look the challenge up by id; reject an already-verified challenge with
`BadRequest`; validate the TOTP code (`Unauthorized` on failure); then check
expiry, destroying the challenge and answering `BadRequest` when
`now > created_at + expiry`; otherwise run the success transaction (mark the
challenge verified, mark the factor verified, issue tokens, and delete every
session of the user whose AAL sorts below "aal2"). -/
def verifyFactor (totpValidate : String → String → Bool) (now expiry : Nat)
    (user : Nat) (factor : Factor) (st : MFAState) (challengeId : Nat) (code : String) :
    Except ApiError Unit × MFAState :=
  match st.challenges.find? (fun c => c.id = challengeId) with
  | none => (Except.error (ApiError.notFound "Challenge not found"), st)
  | some challenge =>
    if challenge.verifiedAt.isSome then
      (Except.error (ApiError.badRequest "Challenge has already been verified"), st)
    else if ¬ totpValidate code factor.totpSecret then
      (Except.error (ApiError.unauthorized "Invalid TOTP code entered"), st)
    else if now > challenge.createdAt + expiry then
      (Except.error (ApiError.badRequest
          "challenge has expired, please verify against another challenge or create a new challenge"),
        { st with challenges := st.challenges.filter (fun c => c.id ≠ challenge.id) })
    else
      (Except.ok (),
        { st with
          challenges := st.challenges.map
            (fun c => if c.id = challenge.id then { c with verifiedAt := some now } else c),
          factors := st.factors.map
            (fun f => if f.id = factor.id then { f with status := FactorVerifiedState } else f),
          sessions := st.sessions.filter (fun s => ¬ (s.userId = user ∧ s.aal < aal2String)) })

/-- The `UnenrollFactor` handler on its modelled state.  A verified factor
demands a valid TOTP code (`Unauthorized` otherwise, before any mutation);
then, in one transaction, the factor is destroyed and every *other* session of
the user tied to this factor is deleted
(`models.InvalidateOtherFactorAssociatedSessions`, modelled from the spec:
deletes all sessions of the user tied to the given factor except the acting
session). -/
def unenrollFactor (totpValidate : String → String → Bool) (user : Nat)
    (factor : Factor) (sessionId : Nat) (st : MFAState) (code : String) :
    Except ApiError Unit × MFAState :=
  if factor.status = FactorVerifiedState ∧ ¬ totpValidate code factor.totpSecret then
    (Except.error (ApiError.unauthorized "Invalid code entered"), st)
  else
    (Except.ok (),
      { st with
        factors := st.factors.filter (fun f => f.id ≠ factor.id),
        sessions := st.sessions.filter
          (fun s => ¬ (s.userId = user ∧ s.factorId = some factor.id ∧ s.id ≠ sessionId)) })

/-! ## Hook outputs and the Postgres hook dispatcher
(`internal/hooks/auth_hooks.go`, `api/hooks.go`) -/

/-- The structured error object a hook output may carry (`AuthHookError`). -/
structure AuthHookError where
  httpCode : Nat
  message : String
deriving DecidableEq

/-- Output of the MFA-verification-attempt hook
(`MFAVerificationAttemptOutput`). -/
structure MFAVerificationAttemptOutput where
  decision : String
  message : String
  hookError : AuthHookError
deriving DecidableEq

/-- Output of the password-verification-attempt hook
(`PasswordVerificationAttemptOutput`). -/
structure PasswordVerificationAttemptOutput where
  decision : String
  message : String
  shouldLogoutUser : Bool
  hookError : AuthHookError
deriving DecidableEq

/-- The claim set of a custom-access-token hook output (`map[string]interface`
claims, modelled as key/value pairs). -/
def ClaimsMap : Type := List (String × String)

instance : DecidableEq ClaimsMap := by
  unfold ClaimsMap
  infer_instance

/-- Output of the custom-access-token hook (`CustomAccessTokenOutput`). -/
structure CustomAccessTokenOutput where
  claims : ClaimsMap
  hookError : AuthHookError
deriving DecidableEq

/-- The `IsError` method of `MFAVerificationAttemptOutput`: set exactly when
the error object's message is non-empty. -/
def MFAVerificationAttemptOutput.isError (mf : MFAVerificationAttemptOutput) : Bool :=
  mf.hookError.message ≠ ""

/-- The `IsError` method of `PasswordVerificationAttemptOutput`. -/
def PasswordVerificationAttemptOutput.isError (p : PasswordVerificationAttemptOutput) : Bool :=
  p.hookError.message ≠ ""

/-- The `IsError` method of `CustomAccessTokenOutput`. -/
def CustomAccessTokenOutput.isError (ca : CustomAccessTokenOutput) : Bool :=
  ca.hookError.message ≠ ""

/-- An HTTP-shaped failure (`HTTPError`): status plus message. -/
structure HTTPErrorShape where
  httpStatus : Nat
  message : String
deriving DecidableEq

/-- The deserialized output of a Postgres hook invocation, tagged by hook
kind, as `invokePostgresHook` type-switches over it. -/
inductive PGHookOutput
  | mfa (o : MFAVerificationAttemptOutput)
  | password (o : PasswordVerificationAttemptOutput)
  | customToken (o : CustomAccessTokenOutput)
deriving DecidableEq

/-- The error object carried by a hook output, regardless of kind. -/
def PGHookOutput.hookError : PGHookOutput → AuthHookError
  | .mfa o => o.hookError
  | .password o => o.hookError
  | .customToken o => o.hookError

/-- Whether a hook output reports an error, via the kind's `IsError` method. -/
def PGHookOutput.isError : PGHookOutput → Bool
  | .mfa o => o.isError
  | .password o => o.isError
  | .customToken o => o.isError

/-- The decision interpretation step of `invokePostgresHook`, acting on the
deserialized hook output (the database invocation itself having succeeded).
For every hook kind: if the output's `IsError` is set, the error object is
mapped to an HTTP-shaped failure carrying its status — 500 when that status is
zero — and its message; otherwise the call succeeds, except that a
custom-access-token output additionally has its claims validated
(`validateTokenClaims` is outside the modelled slice and passed as a
parameter), a validation failure being converted to a failure with the same
defaulted status and the validator's message. -/
def invokePostgresHook (validateTokenClaims : ClaimsMap → Except String Unit) :
    PGHookOutput → Except HTTPErrorShape Unit
  | .mfa o =>
    if o.isError then
      Except.error
        { httpStatus := if o.hookError.httpCode = 0 then 500 else o.hookError.httpCode,
          message := o.hookError.message }
    else Except.ok ()
  | .password o =>
    if o.isError then
      Except.error
        { httpStatus := if o.hookError.httpCode = 0 then 500 else o.hookError.httpCode,
          message := o.hookError.message }
    else Except.ok ()
  | .customToken o =>
    if o.isError then
      Except.error
        { httpStatus := if o.hookError.httpCode = 0 then 500 else o.hookError.httpCode,
          message := o.hookError.message }
    else
      match validateTokenClaims o.claims with
      | Except.error e =>
        Except.error
          { httpStatus := if o.hookError.httpCode = 0 then 500 else o.hookError.httpCode,
            message := e }
      | Except.ok _ => Except.ok ()

/-! ## The HTTP hook dispatcher (`api/hooks.go`) -/

/-- The bounded retry budget (`DefaultHTTPHookRetries`). -/
def DefaultHTTPHookRetries : Nat := 3

/-- The per-attempt client timeout in milliseconds (`DefaultHTTPHookTimeout`,
5 seconds). -/
def DefaultHTTPHookTimeoutMs : Nat := 5000

/-- The response-body cap of `readBodyWithLimit`: 20 KiB. -/
def bodyLimit : Nat := 20 * 1024

/-- The `readBodyWithLimit` body reader: read at most 20 KiB through a limited
reader; when the limit was fully consumed, read one extra byte from the
underlying body — success of that extra read means the payload exceeded the
cap and is rejected, while end-of-stream means the body was exactly at the
limit and is kept. -/
def readBodyWithLimit (body : List Nat) : Except String (List Nat) :=
  let taken := body.take bodyLimit
  if bodyLimit ≤ body.length then
    if body.drop bodyLimit = [] then Except.ok taken
    else Except.error "payload too large"
  else Except.ok taken

/-- What one HTTP POST attempt of the dispatcher can observe: a transport
error (a client timeout, or another error with or without an established TCP
connection), or a response with a status code, the presence of a `retry-after`
header, and an optional body. -/
inductive AttemptOutcome
  | transportError (isTimeout : Bool) (gotConn : Bool)
  | response (status : Nat) (retryAfter : Bool) (body : Option (List Nat))
deriving DecidableEq

/-- The classified result of a hook dispatch (`runHTTPHook`):
success with the body read, or one of the failure classifications the handler
maps to HTTP errors. -/
inductive HookResult
  | success (body : Option (List Nat))
  | gatewayTimeout (msg : String)
  | internalError (msg : String)
  | badRequest (msg : String)
  | unauthorized (msg : String)
  | bodyError (msg : String)
deriving DecidableEq

/-- The retry loop of `runHTTPHook`, one step per attempt index `i`, with
`fuel = DefaultHTTPHookRetries - i` iterations remaining.  `attempts i` is
what attempt `i` observes and `elapsed i` the milliseconds since the first
attempt when iteration `i` begins.  Falling out of the loop yields the
internal "error executing hook" failure; the elapsed-time guard aborts with a
gateway timeout; transport errors retry (a non-timeout error on the last
attempt being classified as a gateway timeout); 200/202/204 read the body
through `readBodyWithLimit`; 429/503 retry only in the presence of a
`retry-after` header; 400, 401 and all other statuses fail immediately. -/
def hookLoop (attempts : Nat → AttemptOutcome) (elapsed : Nat → Nat) :
    Nat → Nat → HookResult
  | 0, _ => HookResult.internalError "error executing hook"
  | fuel + 1, i =>
    if elapsed i > (i + 1) * DefaultHTTPHookTimeoutMs then
      HookResult.gatewayTimeout "failed to reach hook within timeout"
    else
      match attempts i with
      | AttemptOutcome.transportError isTimeout gotConn =>
        if isTimeout then hookLoop attempts elapsed fuel (i + 1)
        else if ¬ gotConn ∧ i < DefaultHTTPHookRetries - 1 then
          hookLoop attempts elapsed fuel (i + 1)
        else if i = DefaultHTTPHookRetries - 1 then
          HookResult.gatewayTimeout "Failed to reach hook within allotted interval"
        else
          HookResult.internalError "Failed to trigger auth hook, error making HTTP request"
      | AttemptOutcome.response status retryAfter body =>
        if status = 200 ∨ status = 204 ∨ status = 202 then
          match body with
          | none => HookResult.success none
          | some bs =>
            match readBodyWithLimit bs with
            | Except.ok read => HookResult.success (some read)
            | Except.error e => HookResult.bodyError e
        else if status = 429 ∨ status = 503 then
          if retryAfter then hookLoop attempts elapsed fuel (i + 1)
          else HookResult.internalError "Service currently unavailable"
        else if status = 400 then HookResult.badRequest "Invalid payload sent to hook"
        else if status = 401 then HookResult.unauthorized "Hook requires authorization token"
        else HookResult.internalError "Error executing Hook"

/-- The `runHTTPHook` dispatcher: run the retry loop from attempt 0 with the
full retry budget. -/
def runHTTPHook (attempts : Nat → AttemptOutcome) (elapsed : Nat → Nat) : HookResult :=
  hookLoop attempts elapsed DefaultHTTPHookRetries 0

/-- Whether a dispatch result is a success. -/
def HookResult.isSuccess : HookResult → Bool
  | .success _ => true
  | _ => false

/-- Whether a dispatch result is classified as a gateway timeout. -/
def HookResult.isGatewayTimeout : HookResult → Bool
  | .gatewayTimeout _ => true
  | _ => false

/-- Whether one attempt outcome is a retryable rate-limit/unavailable response:
status 429 or 503 with a `retry-after` header. -/
def AttemptOutcome.isRetryableUnavailable : AttemptOutcome → Bool
  | .response status retryAfter _ => (status = 429 ∨ status = 503) ∧ retryAfter
  | _ => false

instance : Infinite String :=
  Infinite.of_injective (fun n => String.mk (List.replicate n 'a'))
    (fun m n h => by
      have hlen := congrArg (fun s => s.data.length) h
      simpa using hlen)

/-! ## Helper lemmas -/

theorem toBytesBE_length (n x : Nat) : (toBytesBE n x).length = n := by
  induction n generalizing x with
  | zero => rfl
  | succ n ih => simp [toBytesBE, ih]

theorem toBytesBE_lt (n x : Nat) : ∀ b ∈ toBytesBE n x, b < 256 := by
  induction n generalizing x with
  | zero => simp [toBytesBE]
  | succ n ih =>
    intro b hb
    simp only [toBytesBE, List.mem_append, List.mem_singleton] at hb
    rcases hb with hb | hb
    · exact ih _ b hb
    · omega

theorem sha256Rounds_length (l : List (Nat × Nat)) (st : List Nat) (h : st.length = 8) :
    (sha256Rounds l st).length = 8 := by
  induction l generalizing st with
  | nil => simpa [sha256Rounds] using h
  | cons p rest ih =>
    obtain ⟨k, w⟩ := p
    rcases st with _ | ⟨a, _ | ⟨b, _ | ⟨c, _ | ⟨d, _ | ⟨e, _ | ⟨f, _ | ⟨g, _ | ⟨h', _ | ⟨i, tl⟩⟩⟩⟩⟩⟩⟩⟩⟩ <;>
      simp_all [sha256Rounds]

theorem sha256Compress_length (st block : List Nat) (h : st.length = 8) :
    (sha256Compress st block).length = 8 := by
  simp [sha256Compress, sha256Rounds_length _ st h, h]

theorem sha256Blocks_length (fuel : Nat) (ws st : List Nat) (h : st.length = 8) :
    (sha256Blocks fuel ws st).length = 8 := by
  induction fuel generalizing ws st with
  | zero => simpa [sha256Blocks] using h
  | succ fuel ih =>
    rcases ws with _ | ⟨w, ws⟩
    · simpa [sha256Blocks] using h
    · simpa [sha256Blocks] using ih _ _ (sha256Compress_length _ _ h)

theorem flatMap_toBytesBE_length (l : List Nat) :
    (l.flatMap (toBytesBE 4)).length = 4 * l.length := by
  induction l with
  | nil => simp
  | cons x xs ih => simp [List.flatMap_cons, ih, toBytesBE_length]; omega

theorem sha256_length (m : List Nat) : (sha256 m).length = 32 := by
  have h8 : sha256H0.length = 8 := by decide
  simp only [sha256]
  rw [flatMap_toBytesBE_length, sha256Blocks_length _ _ _ h8]

theorem sha256_lt (m : List Nat) : ∀ b ∈ sha256 m, b < 256 := by
  intro b hb
  simp only [sha256, List.mem_flatMap] at hb
  obtain ⟨w, _, hw⟩ := hb
  exact toBytesBE_lt 4 w b hw

theorem sha256_eq_of_digestFin_eq (m₁ m₂ : List Nat) (h : digestFin m₁ = digestFin m₂) :
    sha256 m₁ = sha256 m₂ := by
  have hlen : (sha256 m₁).length = (sha256 m₂).length := by
    rw [sha256_length, sha256_length]
  apply List.ext_getElem hlen
  intro i h₁ h₂
  have hi : i < 32 := by rw [sha256_length] at h₁; exact h₁
  have hfun := congrFun h ⟨i, hi⟩
  simp only [digestFin, Fin.mk.injEq] at hfun
  have g₁ : (sha256 m₁).getD i 0 = (sha256 m₁)[i] := List.getD_eq_getElem _ _ h₁
  have g₂ : (sha256 m₂).getD i 0 = (sha256 m₂)[i] := List.getD_eq_getElem _ _ h₂
  have b₁ : (sha256 m₁)[i] < 256 := sha256_lt m₁ _ (List.getElem_mem h₁)
  have b₂ : (sha256 m₂)[i] < 256 := sha256_lt m₂ _ (List.getElem_mem h₂)
  rw [g₁, g₂] at hfun
  omega

theorem b64Sextets_lt (bs : List Nat) (hb : ∀ b ∈ bs, b < 256) :
    ∀ s ∈ b64Sextets bs, s < 64 := by
  match bs with
  | [] => simp [b64Sextets]
  | [a] =>
    have ha := hb a (by simp)
    simp only [b64Sextets, List.mem_cons, List.not_mem_nil, or_false]
    rintro s (rfl | rfl) <;> omega
  | [a, b] =>
    have ha := hb a (by simp)
    have hbb := hb b (by simp)
    simp only [b64Sextets, List.mem_cons, List.not_mem_nil, or_false]
    rintro s (rfl | rfl | rfl) <;> omega
  | a :: b :: c :: rest =>
    have ha := hb a (by simp)
    have hbb := hb b (by simp)
    have hc := hb c (by simp)
    have ih := b64Sextets_lt rest (fun x hx => hb x (by simp [hx]))
    simp only [b64Sextets, List.mem_cons]
    rintro s (rfl | rfl | rfl | rfl | hs)
    · omega
    · omega
    · omega
    · omega
    · exact ih s hs

theorem sextetChar_inj_fin : ∀ i j : Fin 64, sextetChar i = sextetChar j → i = j := by
  decide

theorem sextetChar_inj (i j : Nat) (hi : i < 64) (hj : j < 64)
    (h : sextetChar i = sextetChar j) : i = j := by
  have := sextetChar_inj_fin ⟨i, hi⟩ ⟨j, hj⟩ h
  simpa [Fin.mk.injEq] using this

theorem map_inj_of_mem (f : Nat → Char) (l₁ l₂ : List Nat)
    (hinj : ∀ x ∈ l₁, ∀ y ∈ l₂, f x = f y → x = y)
    (h : l₁.map f = l₂.map f) : l₁ = l₂ := by
  induction l₁ generalizing l₂ with
  | nil => cases l₂ <;> simp_all
  | cons x xs ih =>
    cases l₂ with
    | nil => simp_all
    | cons y ys =>
      simp only [List.map_cons, List.cons.injEq] at h
      have hxy : x = y := hinj x (by simp) y (by simp) h.1
      subst hxy
      have := ih ys (fun u hu v hv => hinj u (by simp [hu]) v (by simp [hv])) h.2
      simp [this]

theorem b64Sextets_inj (xs ys : List Nat) (hx : ∀ b ∈ xs, b < 256)
    (hy : ∀ b ∈ ys, b < 256) (hlen : xs.length = ys.length)
    (h : b64Sextets xs = b64Sextets ys) : xs = ys := by
  match xs, ys with
  | [], [] => rfl
  | [], [_] => exfalso; simp only [List.length_cons, List.length_nil] at hlen; omega
  | [], [_, _] => exfalso; simp only [List.length_cons, List.length_nil] at hlen; omega
  | [], _ :: _ :: _ :: _ =>
    exfalso; simp only [List.length_cons, List.length_nil] at hlen; omega
  | [_], [] => exfalso; simp only [List.length_cons, List.length_nil] at hlen; omega
  | [_, _], [] => exfalso; simp only [List.length_cons, List.length_nil] at hlen; omega
  | _ :: _ :: _ :: _, [] =>
    exfalso; simp only [List.length_cons, List.length_nil] at hlen; omega
  | [a], [a'] =>
    simp only [b64Sextets, List.cons.injEq, and_true] at h
    have ha := hx a (by simp)
    have ha' := hy a' (by simp)
    have : a = a' := by omega
    simp [this]
  | [a], [a', b'] => exfalso; simp only [List.length_cons, List.length_nil] at hlen; omega
  | [a], a' :: b' :: c' :: r' =>
    exfalso; simp only [List.length_cons, List.length_nil] at hlen; omega
  | [a, b], [a'] => exfalso; simp only [List.length_cons, List.length_nil] at hlen; omega
  | [a, b], [a', b'] =>
    simp only [b64Sextets, List.cons.injEq, and_true] at h
    have ha := hx a (by simp)
    have hbb := hx b (by simp)
    have ha' := hy a' (by simp)
    have hb' := hy b' (by simp)
    have : a = a' ∧ b = b' := by omega
    simp [this.1, this.2]
  | [a, b], a' :: b' :: c' :: r' =>
    exfalso
    simp only [List.length_cons, List.length_nil] at hlen
    omega
  | a :: b :: c :: r, [a'] =>
    exfalso; simp only [List.length_cons, List.length_nil] at hlen; omega
  | a :: b :: c :: r, [a', b'] =>
    exfalso
    simp only [List.length_cons, List.length_nil] at hlen
    omega
  | a :: b :: c :: r, a' :: b' :: c' :: r' =>
    simp only [b64Sextets, List.cons.injEq] at h
    obtain ⟨h1, h2, h3, h4, h5⟩ := h
    have ha := hx a (by simp)
    have hbb := hx b (by simp)
    have hc := hx c (by simp)
    have ha' := hy a' (by simp)
    have hb' := hy b' (by simp)
    have hc' := hy c' (by simp)
    have habc : a = a' ∧ b = b' ∧ c = c' := by omega
    have hr : r = r' := by
      apply b64Sextets_inj r r' (fun x hxm => hx x (by simp [hxm]))
        (fun x hxm => hy x (by simp [hxm]))
      · simp only [List.length_cons] at hlen; omega
      · exact h5
    simp [habc.1, habc.2.1, habc.2.2, hr]

theorem b64UrlEncode_inj (xs ys : List Nat) (hx : ∀ b ∈ xs, b < 256)
    (hy : ∀ b ∈ ys, b < 256) (hlen : xs.length = ys.length)
    (h : b64UrlEncode xs = b64UrlEncode ys) : xs = ys := by
  apply b64Sextets_inj xs ys hx hy hlen
  apply map_inj_of_mem sextetChar
  · intro u hu v hv huv
    exact sextetChar_inj u v (b64Sextets_lt xs hx u hu) (b64Sextets_lt ys hy v hv) huv
  · have hdata := congrArg String.data h
    simpa [b64UrlEncode] using hdata

theorem calcAAL_foldl (claims : List AMRClaim) (a : String) (l : List AMREntry) :
    claims.foldl
      (fun acc claim =>
        ((if claim.authenticationMethod = TOTPSignInString then aal2String else acc.1),
          acc.2 ++ [{ method := claim.authenticationMethod, timestamp := claim.updatedAt }]))
      (a, l) =
    ((if claims.any (fun c => c.authenticationMethod = TOTPSignInString) then aal2String else a),
      l ++ claims.map (fun c => { method := c.authenticationMethod, timestamp := c.updatedAt })) := by
  induction claims generalizing a l with
  | nil => simp
  | cons c cs ih =>
    simp only [List.foldl_cons, List.any_cons, List.map_cons]
    rw [ih]
    by_cases hc : c.authenticationMethod = TOTPSignInString <;>
      simp [hc, List.append_assoc]

/-! ## The claims -/

/-- C2: the claim reads `IsExpired(flowState, ttl)` as true exactly when
`created_at + ttl` has passed.  The source instead computes
`created_at.After(now + ttl)`.  At `created_at = 0`, `ttl = 10`, `now = 100`
the deadline has long passed yet `isExpired` answers `false`, and at
`created_at = 200`, `ttl = 10`, `now = 0` the deadline has not passed yet it
answers `true`: the source condition is inverted relative to the claim, which
states the evident intent. -/
theorem C2_isExpired_divergence :
    FlowState.isExpired ⟨1, none, "code", "pkce", "", "s256", "", "", "", 0, 0⟩ 10 100 = false ∧
    100 > 0 + 10 ∧
    FlowState.isExpired ⟨1, none, "code", "pkce", "", "s256", "", "", "", 200, 0⟩ 10 0 = true ∧
    ¬ 0 > 200 + 10 := by
  decide

/-- C4: for every session, `CalculateAALAndAMR` reports `aal2` exactly when
the AMR claim trail holds at least one TOTP entry and `aal1` otherwise, and
the returned trail has exactly one entry per stored claim (the corresponding
method/timestamp projection, in order). -/
theorem C4_calculateAALAndAMR (s : Session) :
    (s.calculateAALAndAMR.1 = aal2String ↔
      ∃ c ∈ s.amrClaims, c.authenticationMethod = TOTPSignInString) ∧
    (s.calculateAALAndAMR.1 = aal2String ∨ s.calculateAALAndAMR.1 = aal1String) ∧
    s.calculateAALAndAMR.2 =
      s.amrClaims.map (fun c => { method := c.authenticationMethod, timestamp := c.updatedAt }) := by
  unfold Session.calculateAALAndAMR
  rw [calcAAL_foldl]
  cases hany : s.amrClaims.any (fun c => c.authenticationMethod = TOTPSignInString) with
  | false =>
    rw [List.any_eq_false] at hany
    refine ⟨?_, Or.inr rfl, by simp⟩
    constructor
    · intro habs
      exact absurd habs (by simp [aal1String, aal2String])
    · rintro ⟨c, hc, hm⟩
      exact absurd (by simpa using hm) (by simpa using hany c hc)
  | true =>
    rw [List.any_eq_true] at hany
    refine ⟨?_, Or.inl rfl, by simp⟩
    constructor
    · intro _
      obtain ⟨c, hc, hm⟩ := hany
      exact ⟨c, hc, by simpa using hm⟩
    · intro _
      rfl

/-- C6: an HTTP hook response body of exactly 20 KiB is read fully and
accepted by `readBodyWithLimit`, while any body of 20 KiB + 1 byte or more is
rejected as too large (the reader reads one byte past the cap to tell the two
apart). -/
theorem C6_readBodyWithLimit (body : List Nat) :
    (body.length = 20 * 1024 → readBodyWithLimit body = Except.ok body) ∧
    (body.length ≥ 20 * 1024 + 1 → readBodyWithLimit body = Except.error "payload too large") := by
  constructor
  · intro h
    have htake : body.take bodyLimit = body := List.take_of_length_le (by simp [bodyLimit, h])
    have hdrop : body.drop bodyLimit = [] := by
      simp [bodyLimit]
      omega
    simp [readBodyWithLimit, bodyLimit, h, htake, hdrop]
  · intro h
    have hdrop : body.drop bodyLimit ≠ [] := by
      have hpos : 0 < (body.drop bodyLimit).length := by simp [bodyLimit]; omega
      exact List.ne_nil_of_length_pos hpos
    have hle : bodyLimit ≤ body.length := by simp [bodyLimit]; omega
    simp [readBodyWithLimit, hle, hdrop]

/-- Witness for C6 at a body of exactly 20 KiB and one of 20 KiB + 1 byte. -/
theorem C6_witness :
    readBodyWithLimit (List.replicate (20 * 1024) 7) = Except.ok (List.replicate (20 * 1024) 7) ∧
    readBodyWithLimit (List.replicate (20 * 1024 + 1) 7) = Except.error "payload too large" :=
  ⟨(C6_readBodyWithLimit _).1 (by rw [List.length_replicate]),
   (C6_readBodyWithLimit _).2 (by rw [List.length_replicate])⟩

/-- C7: a challenge whose verified-at timestamp is already set makes
`VerifyFactor` fail with `BadRequest` ("Challenge has already been verified")
and leave the state untouched, whatever the submitted code: a challenge is
verified at most once. -/
theorem C7_verify_at_most_once (tv : String → String → Bool) (now expiry user : Nat)
    (factor : Factor) (st : MFAState) (cid : Nat) (code : String)
    (challenge : Challenge) (t : Nat)
    (hfind : st.challenges.find? (fun c => c.id = cid) = some challenge)
    (hver : challenge.verifiedAt = some t) :
    verifyFactor tv now expiry user factor st cid code =
      (Except.error (ApiError.badRequest "Challenge has already been verified"), st) := by
  unfold verifyFactor
  rw [hfind]
  simp [hver]

/-- Witness for C7 on a one-challenge state whose challenge carries
verified-at 3. -/
theorem C7_witness :
    verifyFactor (fun _ _ => true) 5 10 1 ⟨1, 1, FactorVerifiedState, "s"⟩
        ⟨[⟨7, 1, 0, some 3⟩], [], []⟩ 7 "123" =
      (Except.error (ApiError.badRequest "Challenge has already been verified"),
        ⟨[⟨7, 1, 0, some 3⟩], [], []⟩) :=
  C7_verify_at_most_once _ _ _ _ _ _ _ _ ⟨7, 1, 0, some 3⟩ 3 (by decide) rfl

/-- C9: unenrolling a verified factor with a code that does not validate fails
with `Unauthorized` and leaves the whole state unchanged: the factor still
exists and no session is invalidated. -/
theorem C9_unenroll_bad_code (tv : String → String → Bool) (user : Nat)
    (factor : Factor) (sid : Nat) (st : MFAState) (code : String)
    (hstatus : factor.status = FactorVerifiedState)
    (hcode : tv code factor.totpSecret = false) :
    unenrollFactor tv user factor sid st code =
      (Except.error (ApiError.unauthorized "Invalid code entered"), st) := by
  simp [unenrollFactor, hstatus, hcode]

/-- Witness for C9 on a state holding the verified factor and two sessions. -/
theorem C9_witness :
    unenrollFactor (fun _ _ => false) 1 ⟨4, 1, FactorVerifiedState, "s"⟩ 9
        ⟨[], [⟨4, 1, FactorVerifiedState, "s"⟩], [⟨9, 1, some 4, [], "aal2"⟩, ⟨2, 1, some 4, [], "aal2"⟩]⟩ "000000" =
      (Except.error (ApiError.unauthorized "Invalid code entered"),
        ⟨[], [⟨4, 1, FactorVerifiedState, "s"⟩], [⟨9, 1, some 4, [], "aal2"⟩, ⟨2, 1, some 4, [], "aal2"⟩]⟩) :=
  C9_unenroll_bad_code _ _ _ _ _ _ rfl rfl

/-- C8: whenever a Postgres-variant hook output reports an error (its
`IsError`, i.e. a non-empty error message — see C10), the dispatcher answers
an HTTP-shaped failure whose status is the error object's HTTP status, 500
when that status is unset (zero), with the error object's message propagated
verbatim; this holds for all three hook kinds. -/
theorem C8_hook_error_mapping (vd : ClaimsMap → Except String Unit) (out : PGHookOutput)
    (herr : out.isError = true) :
    invokePostgresHook vd out =
      Except.error
        { httpStatus := if out.hookError.httpCode = 0 then 500 else out.hookError.httpCode,
          message := out.hookError.message } := by
  cases out with
  | mfa o => simp_all [invokePostgresHook, PGHookOutput.isError, PGHookOutput.hookError]
  | password o => simp_all [invokePostgresHook, PGHookOutput.isError, PGHookOutput.hookError]
  | customToken o => simp_all [invokePostgresHook, PGHookOutput.isError, PGHookOutput.hookError]

/-- Witness for C8 on an MFA hook output whose error object has message
"denied" and unset (zero) HTTP status: the failure defaults to status 500. -/
theorem C8_witness :
    (PGHookOutput.mfa ⟨"reject", "", ⟨0, "denied"⟩⟩).isError = true ∧
    invokePostgresHook (fun _ => Except.ok ()) (PGHookOutput.mfa ⟨"reject", "", ⟨0, "denied"⟩⟩) =
      Except.error { httpStatus := 500, message := "denied" } :=
  ⟨by decide, by simpa using C8_hook_error_mapping (fun _ => Except.ok ()) _ (by decide)⟩

/-- C10: for each of the three hook output kinds, `IsError` holds exactly when
the error object's message is non-empty; in particular an output whose error
object carries an HTTP status (zero or not) but an empty message is treated by
the Postgres dispatcher as a success, not a rejection (for the
custom-access-token kind, provided its claims validate). -/
theorem C10_isError_iff (o₁ : MFAVerificationAttemptOutput)
    (o₂ : PasswordVerificationAttemptOutput) (o₃ : CustomAccessTokenOutput)
    (vd : ClaimsMap → Except String Unit) (d m : String) (sl : Bool) (code : Nat)
    (cl : ClaimsMap) (hvd : vd cl = Except.ok ()) :
    (o₁.isError = true ↔ o₁.hookError.message ≠ "") ∧
    (o₂.isError = true ↔ o₂.hookError.message ≠ "") ∧
    (o₃.isError = true ↔ o₃.hookError.message ≠ "") ∧
    invokePostgresHook vd (PGHookOutput.mfa ⟨d, "", ⟨code, ""⟩⟩) = Except.ok () ∧
    invokePostgresHook vd (PGHookOutput.password ⟨d, m, sl, ⟨code, ""⟩⟩) = Except.ok () ∧
    invokePostgresHook vd (PGHookOutput.customToken ⟨cl, ⟨code, ""⟩⟩) = Except.ok () := by
  refine ⟨?_, ?_, ?_, ?_, ?_, ?_⟩ <;>
    simp [MFAVerificationAttemptOutput.isError, PasswordVerificationAttemptOutput.isError,
      CustomAccessTokenOutput.isError, invokePostgresHook, hvd]

/-- Witness for C10 with a trivially accepting claims validator and a hook
error object carrying status 403 with an empty message. -/
theorem C10_witness :
    (fun (_ : ClaimsMap) => (Except.ok () : Except String Unit)) [] = Except.ok () ∧
    (((⟨"continue", "", ⟨403, ""⟩⟩ : MFAVerificationAttemptOutput)).isError = true ↔
      (⟨"continue", "", ⟨403, ""⟩⟩ : MFAVerificationAttemptOutput).hookError.message ≠ "") ∧
    (((⟨"continue", "", true, ⟨403, ""⟩⟩ : PasswordVerificationAttemptOutput)).isError = true ↔
      (⟨"continue", "", true, ⟨403, ""⟩⟩ : PasswordVerificationAttemptOutput).hookError.message ≠ "") ∧
    (((⟨[], ⟨403, ""⟩⟩ : CustomAccessTokenOutput)).isError = true ↔
      (⟨[], ⟨403, ""⟩⟩ : CustomAccessTokenOutput).hookError.message ≠ "") ∧
    invokePostgresHook (fun _ => Except.ok ())
      (PGHookOutput.mfa ⟨"continue", "", ⟨403, ""⟩⟩) = Except.ok () ∧
    invokePostgresHook (fun _ => Except.ok ())
      (PGHookOutput.password ⟨"continue", "", true, ⟨403, ""⟩⟩) = Except.ok () ∧
    invokePostgresHook (fun _ => Except.ok ())
      (PGHookOutput.customToken ⟨[], ⟨403, ""⟩⟩) = Except.ok () :=
  ⟨rfl,
    C10_isError_iff ⟨"continue", "", ⟨403, ""⟩⟩ ⟨"continue", "", true, ⟨403, ""⟩⟩
      ⟨[], ⟨403, ""⟩⟩ (fun _ => Except.ok ()) "continue" "" true 403 [] rfl⟩

/-- C1 counterexample: the claim puts the challenge-expiry check before TOTP
code validation.  In the source the code is validated first: on a challenge
created at 0 with expiry 10 and `now = 100` — well past expiry — a wrong code
(`totp.Validate` returning false) yields `Unauthorized`, not `BadRequest`,
and the expired challenge is not destroyed: the state comes back unchanged. -/
theorem C1_counterexample :
    100 > 0 + 10 ∧
    verifyFactor (fun _ _ => false) 100 10 1 ⟨1, 1, FactorVerifiedState, "s"⟩
        ⟨[⟨1, 1, 0, none⟩], [⟨1, 1, FactorVerifiedState, "s"⟩], []⟩ 1 "000000" =
      (Except.error (ApiError.unauthorized "Invalid TOTP code entered"),
        ⟨[⟨1, 1, 0, none⟩], [⟨1, 1, FactorVerifiedState, "s"⟩], []⟩) := by
  decide

/-- C1 amended: in `VerifyFactor` the TOTP code validation happens before the
challenge-expiry check.  For every existing, not-yet-verified challenge with
`now > created_at + expiry`: when the submitted code validates, verification
fails with `BadRequest` ("has expired, ... create a new challenge") and the
challenge is destroyed; when the code does not validate, verification fails
with `Unauthorized` and the challenge survives (the state is unchanged). -/
theorem C1_expiry_after_code_validation (tv : String → String → Bool)
    (now expiry user : Nat) (factor : Factor) (st : MFAState) (cid : Nat)
    (code : String) (challenge : Challenge)
    (hfind : st.challenges.find? (fun c => c.id = cid) = some challenge)
    (hver : challenge.verifiedAt = none)
    (hexp : now > challenge.createdAt + expiry) :
    (tv code factor.totpSecret = true →
      verifyFactor tv now expiry user factor st cid code =
        (Except.error (ApiError.badRequest
            "challenge has expired, please verify against another challenge or create a new challenge"),
          { st with challenges := st.challenges.filter (fun c => c.id ≠ challenge.id) })) ∧
    (tv code factor.totpSecret = false →
      verifyFactor tv now expiry user factor st cid code =
        (Except.error (ApiError.unauthorized "Invalid TOTP code entered"), st)) := by
  constructor
  · intro hcode
    unfold verifyFactor
    rw [hfind]
    simp [hver, hcode, hexp]
  · intro hcode
    unfold verifyFactor
    rw [hfind]
    simp [hver, hcode]

/-- Witness for C1's amended statement: both branches at a concrete expired
challenge, once with a validator accepting the code and once rejecting it. -/
theorem C1_witness :
    (verifyFactor (fun _ _ => true) 100 10 1 ⟨1, 1, FactorVerifiedState, "s"⟩
        ⟨[⟨1, 1, 0, none⟩], [⟨1, 1, FactorVerifiedState, "s"⟩], []⟩ 1 "000000" =
      (Except.error (ApiError.badRequest
          "challenge has expired, please verify against another challenge or create a new challenge"),
        ⟨[], [⟨1, 1, FactorVerifiedState, "s"⟩], []⟩)) ∧
    (verifyFactor (fun _ _ => false) 100 10 1 ⟨1, 1, FactorVerifiedState, "s"⟩
        ⟨[⟨1, 1, 0, none⟩], [⟨1, 1, FactorVerifiedState, "s"⟩], []⟩ 1 "000000" =
      (Except.error (ApiError.unauthorized "Invalid TOTP code entered"),
        ⟨[⟨1, 1, 0, none⟩], [⟨1, 1, FactorVerifiedState, "s"⟩], []⟩)) := by
  constructor
  · have h := (C1_expiry_after_code_validation (fun _ _ => true) 100 10 1
      ⟨1, 1, FactorVerifiedState, "s"⟩
      ⟨[⟨1, 1, 0, none⟩], [⟨1, 1, FactorVerifiedState, "s"⟩], []⟩ 1 "000000"
      ⟨1, 1, 0, none⟩ (by decide) rfl (by decide)).1 rfl
    simpa using h
  · exact (C1_expiry_after_code_validation (fun _ _ => false) 100 10 1
      ⟨1, 1, FactorVerifiedState, "s"⟩
      ⟨[⟨1, 1, 0, none⟩], [⟨1, 1, FactorVerifiedState, "s"⟩], []⟩ 1 "000000"
      ⟨1, 1, 0, none⟩ (by decide) rfl (by decide)).2 rfl

/-- One step of the `runHTTPHook` retry loop on a retryable 429/503 response
with a `retry-after` header: unless the elapsed-time guard aborts with a
gateway timeout, the loop moves on to the next attempt. -/
theorem hookLoop_retry_step (attempts : Nat → AttemptOutcome) (elapsed : Nat → Nat)
    (fuel i : Nat) (h : (attempts i).isRetryableUnavailable = true) :
    hookLoop attempts elapsed (fuel + 1) i =
      if elapsed i > (i + 1) * DefaultHTTPHookTimeoutMs then
        HookResult.gatewayTimeout "failed to reach hook within timeout"
      else hookLoop attempts elapsed fuel (i + 1) := by
  cases hatt : attempts i with
  | transportError isTimeout gotConn =>
    rw [hatt] at h
    simp [AttemptOutcome.isRetryableUnavailable] at h
  | response status retryAfter body =>
    rw [hatt] at h
    simp only [AttemptOutcome.isRetryableUnavailable, decide_eq_true_eq] at h
    obtain ⟨hs, hr⟩ := h
    subst hr
    rcases hs with rfl | rfl <;> simp [hookLoop, hatt]

/-- C5 counterexample: with every attempt answering 503 with a `retry-after`
header (and a fast clock), the dispatcher exhausts its 3-attempt budget and
returns the internal "error executing hook" failure — not a
GatewayTimeout-classified one, contrary to the claim. -/
theorem C5_counterexample :
    runHTTPHook (fun _ => AttemptOutcome.response 503 true none) (fun _ => 0) =
      HookResult.internalError "error executing hook" ∧
    (runHTTPHook (fun _ => AttemptOutcome.response 503 true none)
        (fun _ => 0)).isGatewayTimeout = false := by
  decide

/-- C5 amended: if the endpoint responds 503 (or 429) with a `retry-after`
header on every attempt, the dispatcher retries up to its bounded budget of 3
attempts and, after exhausting them, returns a failure — the internal "error
executing hook" classification, or a gateway timeout when the elapsed-time
guard trips first — and never a success. -/
theorem C5_retry_exhaustion (attempts : Nat → AttemptOutcome) (elapsed : Nat → Nat)
    (h : ∀ i, i < DefaultHTTPHookRetries → (attempts i).isRetryableUnavailable = true) :
    (runHTTPHook attempts elapsed = HookResult.internalError "error executing hook" ∨
      runHTTPHook attempts elapsed =
        HookResult.gatewayTimeout "failed to reach hook within timeout") ∧
    (runHTTPHook attempts elapsed).isSuccess = false := by
  have hres : runHTTPHook attempts elapsed = HookResult.internalError "error executing hook" ∨
      runHTTPHook attempts elapsed =
        HookResult.gatewayTimeout "failed to reach hook within timeout" := by
    unfold runHTTPHook
    show hookLoop attempts elapsed 3 0 = _ ∨ hookLoop attempts elapsed 3 0 = _
    rw [hookLoop_retry_step attempts elapsed 2 0 (h 0 (by decide))]
    by_cases h0 : elapsed 0 > (0 + 1) * DefaultHTTPHookTimeoutMs
    · rw [if_pos h0]
      exact Or.inr rfl
    · rw [if_neg h0]
      rw [hookLoop_retry_step attempts elapsed 1 1 (h 1 (by decide))]
      by_cases h1 : elapsed 1 > (1 + 1) * DefaultHTTPHookTimeoutMs
      · rw [if_pos h1]
        exact Or.inr rfl
      · rw [if_neg h1]
        rw [hookLoop_retry_step attempts elapsed 0 2 (h 2 (by decide))]
        by_cases h2 : elapsed 2 > (2 + 1) * DefaultHTTPHookTimeoutMs
        · rw [if_pos h2]
          exact Or.inr rfl
        · rw [if_neg h2]
          exact Or.inl rfl
  refine ⟨hres, ?_⟩
  rcases hres with he | he <;> rw [he] <;> rfl

/-- Witness for C5's amended statement at the constant 503-with-retry-after
endpoint and the zero clock. -/
theorem C5_witness :
    (runHTTPHook (fun _ => AttemptOutcome.response 503 true none) (fun _ => 0) =
        HookResult.internalError "error executing hook" ∨
      runHTTPHook (fun _ => AttemptOutcome.response 503 true none) (fun _ => 0) =
        HookResult.gatewayTimeout "failed to reach hook within timeout") ∧
    (runHTTPHook (fun _ => AttemptOutcome.response 503 true none)
        (fun _ => 0)).isSuccess = false :=
  C5_retry_exhaustion (fun _ => AttemptOutcome.response 503 true none) (fun _ => 0)
    (fun i _ => by rfl)

theorem sha256_not_injective_strings :
    ∃ V W : String, V ≠ W ∧ sha256 (strBytes V) = sha256 (strBytes W) := by
  obtain ⟨V, W, hne, heq⟩ :=
    Finite.exists_ne_map_eq_of_infinite (fun s : String => digestFin (strBytes s))
  exact ⟨V, W, hne, sha256_eq_of_digestFin_eq _ _ heq⟩

/-- C3 counterexample: the claim demands that, on an "s256" flow state whose
challenge encodes SHA-256(V), `VerifyPKCE` rejects every verifier other than
V.  That would make SHA-256 injective on verifier strings; but SHA-256 maps
the infinitely many strings into the finitely many 32-byte digests, so two
distinct verifiers share a digest, and `VerifyPKCE` accepts the other one on
V's flow state instead of answering the mismatch error. -/
theorem C3_counterexample :
    ¬ (∀ (f : FlowState) (V W : String),
        f.codeChallengeMethod = "s256" →
        f.codeChallenge = b64UrlEncode (sha256 (strBytes V)) →
        W ≠ V →
        f.verifyPKCE W = Except.error InvalidCodeChallengeError) := by
  intro hclaim
  obtain ⟨V, W, hne, heq⟩ := sha256_not_injective_strings
  have hrej := hclaim ⟨0, none, "", "", b64UrlEncode (sha256 (strBytes V)), "s256",
      "", "", "", 0, 0⟩ V W rfl rfl (Ne.symm hne)
  have hok : FlowState.verifyPKCE ⟨0, none, "", "", b64UrlEncode (sha256 (strBytes V)), "s256",
      "", "", "", 0, 0⟩ W = Except.ok () := by
    simp [FlowState.verifyPKCE, CodeChallengeMethod.string, constantTimeEq, heq]
  rw [hrej] at hok
  exact absurd hok (by simp)

/-- C3 amended: on an "s256" flow state whose stored challenge is the
unpadded base64url encoding of SHA-256(V), `VerifyPKCE` with verifier V
succeeds, and with any verifier W whose SHA-256 digest differs from V's it
returns the code-challenge-mismatch error (W ≠ V alone cannot suffice:
SHA-256 maps infinitely many strings to 32-byte digests, so distinct
verifiers can collide — see the counterexample); for method "plain" the
verifier is compared directly to the stored challenge. -/
theorem C3_pkce_roundtrip (f g : FlowState) (V W P : String)
    (hm : f.codeChallengeMethod = "s256")
    (hc : f.codeChallenge = b64UrlEncode (sha256 (strBytes V)))
    (hW : sha256 (strBytes W) ≠ sha256 (strBytes V))
    (hgm : g.codeChallengeMethod = "plain") :
    f.verifyPKCE V = Except.ok () ∧
    f.verifyPKCE W = Except.error InvalidCodeChallengeError ∧
    (g.verifyPKCE P = Except.ok () ↔ g.codeChallenge = P) := by
  refine ⟨?_, ?_, ?_⟩
  · simp [FlowState.verifyPKCE, hm, CodeChallengeMethod.string, constantTimeEq, hc]
  · have henc : b64UrlEncode (sha256 (strBytes V)) ≠ b64UrlEncode (sha256 (strBytes W)) := by
      intro habs
      exact hW (b64UrlEncode_inj _ _ (sha256_lt _) (sha256_lt _)
        (by rw [sha256_length, sha256_length]) habs).symm
    simp [FlowState.verifyPKCE, hm, CodeChallengeMethod.string, constantTimeEq, hc, henc]
  · have hps : ("plain" : String) ≠ "s256" := by decide
    by_cases hcp : g.codeChallenge = P <;>
      simp [FlowState.verifyPKCE, hgm, CodeChallengeMethod.string, constantTimeEq, hps, hcp]

/-- Witness for C3's amended statement: verifier "abc" against its own
challenge and against the digest-distinct verifier "abd", plus a "plain" flow
state whose challenge is compared directly. -/
theorem C3_witness :
    FlowState.verifyPKCE ⟨0, none, "", "", b64UrlEncode (sha256 (strBytes "abc")), "s256",
        "", "", "", 0, 0⟩ "abc" = Except.ok () ∧
    FlowState.verifyPKCE ⟨0, none, "", "", b64UrlEncode (sha256 (strBytes "abc")), "s256",
        "", "", "", 0, 0⟩ "abd" = Except.error InvalidCodeChallengeError ∧
    (FlowState.verifyPKCE ⟨0, none, "", "", "secret-verifier", "plain",
        "", "", "", 0, 0⟩ "secret-verifier" = Except.ok () ↔
      ("secret-verifier" : String) = "secret-verifier") :=
  C3_pkce_roundtrip _ _ "abc" "abd" "secret-verifier" rfl rfl (by decide) rfl

end Gotrue
